import Mathlib

/-!
Verification of the two PHYS20161 coursework scripts:
`u95060ss_first_assignment_bouncy_ball.py` (bounce count and total time of a
ball losing a fixed fraction of its height at each bounce) and
`nuclear_decay.py` (curve-fitting pipeline for rubidium-79 decay data).

Numeric values are embedded as rationals (`ℚ`) for the exact arithmetic of
the scripts' loops and filters, and as reals (`ℝ`) where square roots appear.
Rows possibly containing missing values (NaN) are embedded as `Option ℚ`
fields, `none` standing for NaN.
-/

/-- The module-level constant `GRAVITATIONAL_ACCELERATION_CONSTANT = 9.807`
of the bouncy-ball script. -/
noncomputable def GRAVITATIONAL_ACCELERATION_CONSTANT : ℝ := 9807 / 1000

/-- Embedding of `calculate_height_values(initial_height, minimum_height,
energy_loss_coefficient)`: the `while new_height > minimum_height` loop that
repeatedly multiplies the height by the coefficient and appends the result.
The loop is given explicit fuel; `none` means the fuel was exhausted before
the loop condition failed, `some l` means the loop finished with list `l`. -/
def calculate_height_values :
    ℕ → ℚ → ℚ → ℚ → Option (List ℚ)
  | 0, new_height, minimum_height, _ =>
      if new_height > minimum_height then none else some []
  | fuel + 1, new_height, minimum_height, energy_loss_coefficient =>
      if new_height > minimum_height then
        (calculate_height_values fuel (new_height * energy_loss_coefficient)
            minimum_height energy_loss_coefficient).map
          (fun rest => new_height * energy_loss_coefficient :: rest)
      else some []

/-- Embedding of `calculate_time_values(initial_height, height_list)`:
the zeroth-bounce fall time `sqrt(2*h/g)` plus the sum over
`height_list[:(len(height_list)-1)]` of the flight times `sqrt(8*h/g)`. -/
noncomputable def calculate_time_values (initial_height : ℚ) (height_list : List ℚ) : ℝ :=
  let zeroth_bounce_time : ℝ :=
    Real.sqrt ((2 * (initial_height : ℝ)) / GRAVITATIONAL_ACCELERATION_CONSTANT)
  let bounce_time_list : List ℝ :=
    (height_list.take (height_list.length - 1)).map
      (fun h => Real.sqrt ((8 * (h : ℝ)) / GRAVITATIONAL_ACCELERATION_CONSTANT))
  bounce_time_list.sum + zeroth_bounce_time

/-- Spec-side total time summing the flight times of ALL listed heights
(the reading of claim C7); to be compared with `calculate_time_values`. -/
noncomputable def total_time_all_heights (initial_height : ℚ) (height_list : List ℚ) : ℝ :=
  Real.sqrt ((2 * (initial_height : ℝ)) / GRAVITATIONAL_ACCELERATION_CONSTANT) +
    (height_list.map
      (fun h => Real.sqrt ((8 * (h : ℝ)) / GRAVITATIONAL_ACCELERATION_CONSTANT))).sum

/-- Embedding of the first validation loop of the bounce script's `main`:
entries are `none` for a non-numeric entry (where `float` raises
`ValueError`) and `some v` for the numeric value `v`; the loop re-prompts on
`none` and on `v <= 0`, and returns the first accepted value ( `none` if the
entry stream runs out). -/
def validate_initial_height : List (Option ℚ) → Option ℚ
  | [] => none
  | entry :: rest =>
      match entry with
      | none => validate_initial_height rest
      | some v => if v ≤ 0 then validate_initial_height rest else some v

/-- Embedding of the second validation loop of the bounce script's `main`:
re-prompts on non-numeric entries, on `v < 0` and on
`v >= initial_height`. -/
def validate_minimum_height (initial_height : ℚ) :
    List (Option ℚ) → Option ℚ
  | [] => none
  | entry :: rest =>
      match entry with
      | none => validate_minimum_height initial_height rest
      | some v =>
          if v < 0 then validate_minimum_height initial_height rest
          else if v ≥ initial_height then
            validate_minimum_height initial_height rest
          else some v

/-- Embedding of the third validation loop of the bounce script's `main`:
re-prompts on non-numeric entries and on
`v <= 0 or v >= 1`. -/
def validate_energy_loss_coefficient : List (Option ℚ) → Option ℚ
  | [] => none
  | entry :: rest =>
      match entry with
      | none => validate_energy_loss_coefficient rest
      | some v =>
          if v ≤ 0 ∨ v ≥ 1 then validate_energy_loss_coefficient rest
          else some v

/-- Embedding of `data_is_not_null(datapoints)` of `nuclear_decay.py`:
a NaN entry is embedded as `none`, so `np.isnan` becomes `Option.isNone`. -/
def data_is_not_null (datapoints : Option ℚ) : Bool :=
  if datapoints.isNone then false else true

/-- Embedding of `remove_null_values(file_ab)`: keeps each row whose three
fields (time, activity, activity uncertainty) are all non-null, converting
time from hours to seconds (`*3600`) and the activities from terabecquerel
to becquerel (`*10**12`); row order is preserved by the `np.vstack`
appends. -/
def remove_null_values :
    List (Option ℚ × Option ℚ × Option ℚ) → List (List ℚ)
  | [] => []
  | row :: rest =>
      if data_is_not_null row.1 && data_is_not_null row.2.1 &&
          data_is_not_null row.2.2 then
        [row.1.getD 0 * 3600, row.2.1.getD 0 * 10 ^ 12,
          row.2.2.getD 0 * 10 ^ 12] :: remove_null_values rest
      else remove_null_values rest

/-- Spec-side form of `remove_null_values`: exactly the fully non-missing
rows survive, each converted; rows with any missing field contribute
nothing. To be compared with `remove_null_values`. -/
def remove_null_values_spec
    (file_ab : List (Option ℚ × Option ℚ × Option ℚ)) : List (List ℚ) :=
  file_ab.filterMap (fun row =>
    match row with
    | (some t, some a, some u) =>
        some [t * 3600, a * 10 ^ 12, u * 10 ^ 12]
    | _ => none)

/-- Embedding of `remove_outliers(trial_activity, time, activity,
activity_uncertainty)`: `np.where(np.abs(trial_activity - activity) <
3*activity_uncertainty)` selects the indices kept, and the three index-
selected columns are transposed into rows `[time, activity, uncertainty]`.
On equal-length columns this is the filter of the zipped rows by the strict
three-sigma test. -/
def remove_outliers (trial_activity time activity activity_uncertainty :
    List ℚ) : List (List ℚ) :=
  ((trial_activity.zip (time.zip (activity.zip activity_uncertainty))).filter
      (fun p => decide (|p.1 - p.2.2.1| < 3 * p.2.2.2))).map
    (fun p => [p.2.1, p.2.2.1, p.2.2.2])

/-- Spec-side row-indexed form of `remove_outliers`: row `i` survives
exactly when the measured activity lies strictly within three
uncertainties of the model prediction. To be compared with
`remove_outliers`. -/
def remove_outliers_spec (trial_activity time activity activity_uncertainty :
    List ℚ) : List (List ℚ) :=
  (List.range trial_activity.length).filterMap (fun i =>
    if |trial_activity.getD i 0 - activity.getD i 0| <
        3 * activity_uncertainty.getD i 0 then
      some [time.getD i 0, activity.getD i 0, activity_uncertainty.getD i 0]
    else none)

/-- The quadratic-residual sum
`np.sum(((dependent_variable-predicted_dependent_variable)**2)/(error**2))`
of `chi_squared_value`, on zipped equal-length columns. -/
def chi_squared_sum (dependent_variable predicted_dependent_variable error :
    List ℚ) : ℚ :=
  ((dependent_variable.zip (predicted_dependent_variable.zip error)).map
    (fun x => (x.1 - x.2.1) ^ 2 / x.2.2 ^ 2)).sum

/-- Embedding of `chi_squared_value(independent_variable,
dependent_variable, error, predicted_dependent_variable, dataset)`: the
chi-squared sum divided by `len(independent_variable) - (len(dataset[0]) -
1)` degrees of freedom (Python integer arithmetic embedded in `ℤ`). -/
def chi_squared_value (independent_variable dependent_variable error
    predicted_dependent_variable : List ℚ) (dataset : List (List ℚ)) : ℚ :=
  let chi_squared := chi_squared_sum dependent_variable
    predicted_dependent_variable error
  let row_numbers : ℤ := independent_variable.length
  let column_numbers : ℤ := (dataset.headD []).length - 1
  let degrees_of_freedom : ℤ := row_numbers - column_numbers
  chi_squared / (degrees_of_freedom : ℚ)

/-- C6: `remove_null_values` returns exactly the rows in which none of the
three fields is missing, each retained row with time multiplied by 3600 and
activity and uncertainty multiplied by 10^12; rows with any missing field
are discarded and contribute nothing to the output. -/
theorem remove_null_values_eq_spec
    (file_ab : List (Option ℚ × Option ℚ × Option ℚ)) :
    remove_null_values file_ab = remove_null_values_spec file_ab := by
  induction file_ab with
  | nil => rfl
  | cons row rest ih =>
      obtain ⟨t, a, u⟩ := row
      cases t <;> cases a <;> cases u <;>
        simp_all [remove_null_values, remove_null_values_spec,
          data_is_not_null, List.filterMap_cons]

/-- C5: with a dataset whose first row has the three fields time, activity
and activity uncertainty, the reduced chi-squared equals the chi-squared
sum divided by (sample count minus two) degrees of freedom. -/
theorem chi_squared_value_dof
    (independent_variable dependent_variable error
      predicted_dependent_variable : List ℚ)
    (r : List ℚ) (rest : List (List ℚ)) (hr : r.length = 3) :
    chi_squared_value independent_variable dependent_variable error
        predicted_dependent_variable (r :: rest)
      = chi_squared_sum dependent_variable predicted_dependent_variable error
          / (((independent_variable.length : ℤ) - 2 : ℤ) : ℚ) := by
  simp [chi_squared_value, hr]

/-- Witness for C5 at a concrete one-point dataset with a three-field row. -/
theorem chi_squared_value_dof_witness :
    chi_squared_value [0] [1] [1] [0] [[0, 1, 1]]
      = chi_squared_sum [1] [0] [1]
          / (((([(0:ℚ)] : List ℚ).length : ℤ) - 2 : ℤ) : ℚ) :=
  chi_squared_value_dof [0] [1] [1] [0] [0, 1, 1] [] (by norm_num)

/-- C9: every row retained by `remove_outliers` has a strictly positive
uncertainty (third field), so the square of that uncertainty, the
denominator used by `chi_squared_value`, is non-zero. -/
theorem remove_outliers_uncertainty_pos
    (trial_activity time activity activity_uncertainty : List ℚ)
    (r : List ℚ) (hr : r ∈ remove_outliers trial_activity time activity
      activity_uncertainty) :
    0 < r.getD 2 0 ∧ (r.getD 2 0) ^ 2 ≠ 0 := by
  unfold remove_outliers at hr
  rw [List.mem_map] at hr
  obtain ⟨p, hp, rfl⟩ := hr
  rw [List.mem_filter] at hp
  have h3 : |p.1 - p.2.2.1| < 3 * p.2.2.2 := by simpa using hp.2
  have hu : 0 < p.2.2.2 := by nlinarith [abs_nonneg (p.1 - p.2.2.1)]
  refine ⟨by simpa using hu, ?_⟩
  have : (0:ℚ) < p.2.2.2 ^ 2 := by positivity
  simpa using this.ne.symm

/-- Witness for C9: a concrete retained row with its positive uncertainty. -/
theorem remove_outliers_uncertainty_pos_witness :
    0 < ([1, 0, 1] : List ℚ).getD 2 0
      ∧ (([1, 0, 1] : List ℚ).getD 2 0) ^ 2 ≠ 0 :=
  remove_outliers_uncertainty_pos [0] [1] [0] [1] [1, 0, 1]
    (by norm_num [remove_outliers])

/-- Counterexample to C1 as stated: a row whose measured activity deviates
from the prediction by exactly three uncertainties (not more than three) is
nevertheless discarded by `remove_outliers`, because the filter is strict. -/
theorem remove_outliers_boundary_discarded :
    |(0:ℚ) - 3| = 3 * 1 ∧ remove_outliers [0] [5] [3] [1] = [] := by
  constructor
  · norm_num
  · norm_num [remove_outliers]

/-- Cons-step equation for `remove_outliers`: the head row is kept exactly
when it passes the strict three-sigma test. -/
theorem remove_outliers_cons (x y a u : ℚ) (xs ys as us : List ℚ) :
    remove_outliers (x :: xs) (y :: ys) (a :: as) (u :: us)
      = if |x - a| < 3 * u then
          [y, a, u] :: remove_outliers xs ys as us
        else remove_outliers xs ys as us := by
  unfold remove_outliers
  rw [List.zip_cons_cons, List.zip_cons_cons, List.zip_cons_cons,
    List.filter_cons]
  by_cases hcond : |x - a| < 3 * u <;> simp [hcond]

/-- Cons-step equation for `remove_outliers_spec`. -/
theorem remove_outliers_spec_cons (x y a u : ℚ) (xs ys as us : List ℚ) :
    remove_outliers_spec (x :: xs) (y :: ys) (a :: as) (u :: us)
      = if |x - a| < 3 * u then
          [y, a, u] :: remove_outliers_spec xs ys as us
        else remove_outliers_spec xs ys as us := by
  unfold remove_outliers_spec
  rw [List.length_cons, List.range_succ_eq_map, List.filterMap_cons,
    List.filterMap_map]
  have hfun : ((fun i : ℕ =>
      if |(x :: xs).getD i 0 - (a :: as).getD i 0| <
          3 * (u :: us).getD i 0 then
        some [(y :: ys).getD i 0, (a :: as).getD i 0, (u :: us).getD i 0]
      else none) ∘ Nat.succ)
      = fun i : ℕ =>
        if |xs.getD i 0 - as.getD i 0| < 3 * us.getD i 0 then
          some [ys.getD i 0, as.getD i 0, us.getD i 0]
        else none := by
    funext i
    simp [Function.comp_def]
  rw [hfun]
  by_cases hcond : |x - a| < 3 * u <;> simp [hcond]

/-- C1 amended: on equal-length columns, `remove_outliers` retains exactly
the rows whose measured activity lies STRICTLY within three uncertainties
of the model prediction; a row deviating by exactly three uncertainties is
discarded. -/
theorem remove_outliers_eq_spec
    (trial_activity time activity activity_uncertainty : List ℚ)
    (ht : time.length = trial_activity.length)
    (ha : activity.length = trial_activity.length)
    (hu : activity_uncertainty.length = trial_activity.length) :
    remove_outliers trial_activity time activity activity_uncertainty
      = remove_outliers_spec trial_activity time activity
          activity_uncertainty := by
  induction trial_activity generalizing time activity
      activity_uncertainty with
  | nil =>
      simp only [List.length_nil, List.length_eq_zero] at ht ha hu
      subst ht; subst ha; subst hu
      rfl
  | cons x xs ih =>
      cases time with
      | nil => simp at ht
      | cons y ys =>
          cases activity with
          | nil => simp at ha
          | cons a as =>
              cases activity_uncertainty with
              | nil => simp at hu
              | cons u us =>
                  simp only [List.length_cons, Nat.succ_inj] at ht ha hu
                  rw [remove_outliers_cons, remove_outliers_spec_cons,
                    ih ys as us ht ha hu]

/-- Witness for C1's amended theorem at concrete equal-length columns:
one row strictly inside three sigma, one row outside. -/
theorem remove_outliers_eq_spec_witness :
    remove_outliers [0, 10] [1, 2] [1, 20] [2, 3]
      = remove_outliers_spec [0, 10] [1, 2] [1, 20] [2, 3] :=
  remove_outliers_eq_spec [0, 10] [1, 2] [1, 20] [2, 3]
    (by norm_num) (by norm_num) (by norm_num)

/-- Counterexample to C2 as stated: doubling the one uncertainty of a
one-point dataset changes the reduced chi-squared (from -1 to -1/4 here,
the degrees of freedom being 1 - 2 = -1), so the output is not invariant
under a uniform non-zero rescaling of the error array. -/
theorem chi_squared_value_not_scale_invariant :
    (∀ e ∈ ([1] : List ℚ), 0 < e) ∧ (2:ℚ) ≠ 0 ∧
      chi_squared_value [0] [1] (List.map (fun e => (2:ℚ) * e) [1]) [0]
          [[0, 1, 1]]
        ≠ chi_squared_value [0] [1] [1] [0] [[0, 1, 1]] := by
  refine ⟨by norm_num, by norm_num, ?_⟩
  norm_num [chi_squared_value, chi_squared_sum]

/-- Per-term and whole-sum scaling of the chi-squared sum: scaling every
error by `k` divides the sum by `k ^ 2`. -/
theorem chi_squared_sum_scale (dependent_variable
    predicted_dependent_variable error : List ℚ) (k : ℚ) :
    chi_squared_sum dependent_variable predicted_dependent_variable
        (error.map (fun e => k * e))
      = chi_squared_sum dependent_variable predicted_dependent_variable error
          / k ^ 2 := by
  unfold chi_squared_sum
  rw [List.zip_map_right, List.zip_map_right, List.map_map]
  have hterm : ∀ x : ℚ × ℚ × ℚ,
      ((fun x : ℚ × ℚ × ℚ => (x.1 - x.2.1) ^ 2 / x.2.2 ^ 2) ∘
        Prod.map id (Prod.map id (fun e => k * e))) x
        = ((x.1 - x.2.1) ^ 2 / x.2.2 ^ 2) * (k ^ 2)⁻¹ := by
    rintro ⟨d, p, e⟩
    simp only [Function.comp_apply, Prod.map_apply, id_eq]
    rw [mul_pow, div_eq_mul_inv, mul_inv, div_eq_mul_inv]
    ring
  rw [List.map_congr_left (fun x _ => hterm x), List.sum_map_mul_right,
    div_eq_mul_inv]

/-- C2 amended: scaling every uncertainty by a non-zero factor `k` divides
the reduced chi-squared by `k ^ 2` (all other arguments fixed); it is not
unchanged unless `k ^ 2 = 1`. -/
theorem chi_squared_value_scaling (independent_variable dependent_variable
    error predicted_dependent_variable : List ℚ) (dataset : List (List ℚ))
    (k : ℚ) (hk : k ≠ 0) (hpos : ∀ e ∈ error, 0 < e) :
    chi_squared_value independent_variable dependent_variable
        (error.map (fun e => k * e)) predicted_dependent_variable dataset
      = chi_squared_value independent_variable dependent_variable error
          predicted_dependent_variable dataset / k ^ 2 := by
  unfold chi_squared_value
  rw [chi_squared_sum_scale]
  rw [div_right_comm]

/-- Witness for C2's amended theorem at the concrete one-point dataset of
the counterexample, with scale factor 2. -/
theorem chi_squared_value_scaling_witness :
    chi_squared_value [0] [1] (List.map (fun e => (2:ℚ) * e) [1]) [0]
        [[0, 1, 1]]
      = chi_squared_value [0] [1] [1] [0] [[0, 1, 1]] / 2 ^ 2 :=
  chi_squared_value_scaling [0] [1] [1] [0] [[0, 1, 1]] 2 (by norm_num)
    (by norm_num)

/-- Each element of a list produced by `calculate_height_values` is the
initial height times the corresponding power of the coefficient: element
`i` equals `coefficient ^ (i + 1) * height`. -/
theorem calculate_height_values_getD
    (minimum_height energy_loss_coefficient : ℚ) :
    ∀ (fuel : ℕ) (h : ℚ) (l : List ℚ),
      calculate_height_values fuel h minimum_height energy_loss_coefficient
        = some l →
      ∀ i < l.length, l.getD i 0 = energy_loss_coefficient ^ (i + 1) * h := by
  intro fuel
  induction fuel with
  | zero =>
      intro h l hl i hi
      unfold calculate_height_values at hl
      by_cases hc : h > minimum_height
      · simp [hc] at hl
      · simp only [if_neg hc, Option.some.injEq] at hl
        subst hl
        simp at hi
  | succ n ihn =>
      intro h l hl i hi
      unfold calculate_height_values at hl
      by_cases hc : h > minimum_height
      · rw [if_pos hc, Option.map_eq_some'] at hl
        obtain ⟨l', hl', rfl⟩ := hl
        cases i with
        | zero =>
            rw [List.getD_cons_zero]
            ring
        | succ j =>
            simp only [List.length_cons, Nat.succ_lt_succ_iff] at hi
            rw [List.getD_cons_succ,
              ihn (h * energy_loss_coefficient) l' hl' j hi]
            ring
      · simp only [if_neg hc, Option.some.injEq] at hl
        subst hl
        simp at hi

/-- Loop invariant of `calculate_height_values`: the list is empty exactly
when the entering height is already at or below the floor, every element
except the last is above the floor, and the last element is at or below
the floor. -/
theorem calculate_height_values_invariant
    (minimum_height energy_loss_coefficient : ℚ) :
    ∀ (fuel : ℕ) (h : ℚ) (l : List ℚ),
      calculate_height_values fuel h minimum_height energy_loss_coefficient
        = some l →
      ((l = [] ↔ h ≤ minimum_height) ∧
        (∀ i, i + 1 < l.length → minimum_height < l.getD i 0) ∧
        (∀ x, l.getLast? = some x → x ≤ minimum_height)) := by
  intro fuel
  induction fuel with
  | zero =>
      intro h l hl
      unfold calculate_height_values at hl
      by_cases hc : h > minimum_height
      · simp [hc] at hl
      · simp only [if_neg hc, Option.some.injEq] at hl
        subst hl
        refine ⟨⟨fun _ => not_lt.mp hc, fun _ => rfl⟩, ?_, ?_⟩
        · intro i hi
          simp at hi
        · intro x hx
          simp at hx
  | succ n ihn =>
      intro h l hl
      unfold calculate_height_values at hl
      by_cases hc : h > minimum_height
      · rw [if_pos hc, Option.map_eq_some'] at hl
        obtain ⟨l', hl', rfl⟩ := hl
        obtain ⟨hiff, hinv2, hinv3⟩ :=
          ihn (h * energy_loss_coefficient) l' hl'
        refine ⟨⟨fun hnil => absurd hnil (List.cons_ne_nil _ _),
          fun hle => absurd hle (not_le.mpr hc)⟩, ?_, ?_⟩
        · intro i hi
          cases i with
          | zero =>
              rw [List.getD_cons_zero]
              have hne : l' ≠ [] := by
                intro hnil
                rw [hnil] at hi
                simp at hi
              exact not_le.mp (fun hle => hne (hiff.mpr hle))
          | succ j =>
              rw [List.getD_cons_succ]
              refine hinv2 j ?_
              simpa [Nat.succ_lt_succ_iff] using hi
        · intro x hx
          cases l' with
          | nil =>
              rw [List.getLast?_singleton, Option.some.injEq] at hx
              subst hx
              exact hiff.mp rfl
          | cons b bs =>
              rw [List.getLast?_cons_cons] at hx
              exact hinv3 x hx
      · simp only [if_neg hc, Option.some.injEq] at hl
        subst hl
        refine ⟨⟨fun _ => not_lt.mp hc, fun _ => rfl⟩, ?_, ?_⟩
        · intro i hi
          simp at hi
        · intro x hx
          simp at hx

/-- C4: on valid inputs, any height list the loop returns is strictly
decreasing, and its first element is strictly below the initial height. -/
theorem calculate_height_values_strict_decreasing
    (initial_height minimum_height energy_loss_coefficient : ℚ)
    (fuel : ℕ) (l : List ℚ)
    (hh : 0 < initial_height) (hm0 : 0 ≤ minimum_height)
    (hmi : minimum_height < initial_height)
    (hc0 : 0 < energy_loss_coefficient) (hc1 : energy_loss_coefficient < 1)
    (hl : calculate_height_values fuel initial_height minimum_height
      energy_loss_coefficient = some l) :
    (∀ i, i + 1 < l.length → l.getD (i + 1) 0 < l.getD i 0) ∧
      (0 < l.length → l.getD 0 0 < initial_height) := by
  have hg := calculate_height_values_getD minimum_height
    energy_loss_coefficient fuel initial_height l hl
  constructor
  · intro i hi
    rw [hg (i + 1) hi, hg i (Nat.lt_of_succ_lt hi)]
    exact mul_lt_mul_of_pos_right
      (pow_lt_pow_right_of_lt_one₀ hc0 hc1 (Nat.lt_succ_self (i + 1))) hh
  · intro hlen
    rw [hg 0 hlen, pow_one]
    exact mul_lt_of_lt_one_left hh hc1

/-- Witness for C4 at initial height 2, minimum height 1, coefficient 1/2,
whose height list is `[1]`. -/
theorem calculate_height_values_strict_decreasing_witness :
    ([1] : List ℚ).getD 0 0 < 2 :=
  (calculate_height_values_strict_decreasing 2 1 (1/2) 1 [1] (by norm_num)
    (by norm_num) (by norm_num) (by norm_num) (by norm_num)
    (by norm_num [calculate_height_values])).2 (by norm_num)

/-- C10: on valid inputs, a returned height list is non-empty, every
element except the last is strictly above the minimum height, the last
element is at or below it, and the per-bounce time sum of
`calculate_time_values` ranges over exactly the list without that final
sub-floor element. -/
theorem calculate_height_values_floor_invariant
    (initial_height minimum_height energy_loss_coefficient : ℚ)
    (fuel : ℕ) (l : List ℚ)
    (hh : 0 < initial_height) (hm0 : 0 ≤ minimum_height)
    (hmi : minimum_height < initial_height)
    (hc0 : 0 < energy_loss_coefficient) (hc1 : energy_loss_coefficient < 1)
    (hl : calculate_height_values fuel initial_height minimum_height
      energy_loss_coefficient = some l) :
    l ≠ [] ∧
      (∀ i, i + 1 < l.length → minimum_height < l.getD i 0) ∧
      (∀ x, l.getLast? = some x → x ≤ minimum_height) ∧
      calculate_time_values initial_height l
        = Real.sqrt ((2 * (initial_height : ℝ)) /
            GRAVITATIONAL_ACCELERATION_CONSTANT) +
          (l.dropLast.map (fun h => Real.sqrt ((8 * (h : ℝ)) /
            GRAVITATIONAL_ACCELERATION_CONSTANT))).sum := by
  obtain ⟨hiff, hinv2, hinv3⟩ := calculate_height_values_invariant
    minimum_height energy_loss_coefficient fuel initial_height l hl
  refine ⟨fun hnil => absurd (hiff.mp hnil) (not_le.mpr hmi), hinv2, hinv3,
    ?_⟩
  unfold calculate_time_values
  rw [List.dropLast_eq_take]
  exact add_comm _ _

/-- Witness for C10 at initial height 2, minimum height 1, coefficient 1/2,
whose height list is `[1]`: the list is non-empty and its last element 1
is at or below the floor 1. -/
theorem calculate_height_values_floor_invariant_witness :
    ([1] : List ℚ) ≠ [] ∧ (1 : ℚ) ≤ 1 := by
  have h := calculate_height_values_floor_invariant 2 1 (1/2) 1 [1]
    (by norm_num) (by norm_num) (by norm_num) (by norm_num) (by norm_num)
    (by norm_num [calculate_height_values])
  exact ⟨h.1, h.2.2.1 1 rfl⟩

/-- Counterexample to C7 as stated: for initial height 2, minimum height 1
and coefficient 1/2 the loop returns the height list `[1]`, and the total
time computed by `calculate_time_values` differs from the zeroth-bounce
fall time plus the flight times of ALL listed heights, because the code
sums over `height_list[:(len(height_list)-1)]`, leaving out the last
height. -/
theorem calculate_time_values_not_all_heights :
    calculate_height_values 1 2 1 (1/2) = some [1] ∧
      calculate_time_values 2 [1] ≠ total_time_all_heights 2 [1] := by
  refine ⟨by norm_num [calculate_height_values], ?_⟩
  have hs : 0 < Real.sqrt (8 / GRAVITATIONAL_ACCELERATION_CONSTANT) := by
    apply Real.sqrt_pos.mpr
    unfold GRAVITATIONAL_ACCELERATION_CONSTANT
    norm_num
  have h1 : calculate_time_values 2 [1]
      = Real.sqrt (4 / GRAVITATIONAL_ACCELERATION_CONSTANT) := by
    unfold calculate_time_values
    norm_num
  have h2 : total_time_all_heights 2 [1]
      = Real.sqrt (4 / GRAVITATIONAL_ACCELERATION_CONSTANT)
        + Real.sqrt (8 / GRAVITATIONAL_ACCELERATION_CONSTANT) := by
    unfold total_time_all_heights
    norm_num
  rw [h1, h2]
  intro heq
  linarith

/-- C7 amended: the total time returned by `calculate_time_values` equals
the zeroth-bounce fall time plus the sum of the per-bounce flight times of
the listed heights EXCEPT THE LAST (the final sub-floor height is not
counted as a bounce). -/
theorem calculate_time_values_drops_last
    (initial_height minimum_height energy_loss_coefficient : ℚ)
    (fuel : ℕ) (l : List ℚ) (hh : 0 < initial_height)
    (hl : calculate_height_values fuel initial_height minimum_height
      energy_loss_coefficient = some l) :
    calculate_time_values initial_height l
      = total_time_all_heights initial_height l.dropLast := by
  unfold calculate_time_values total_time_all_heights
  rw [List.dropLast_eq_take]
  exact add_comm _ _

/-- Witness for C7's amended theorem at the concrete run with initial
height 2, minimum height 1, coefficient 1/2 and height list `[1]`. -/
theorem calculate_time_values_drops_last_witness :
    calculate_time_values 2 [1] = total_time_all_heights 2 ([1] : List ℚ).dropLast :=
  calculate_time_values_drops_last 2 1 (1/2) 1 [1] (by norm_num)
    (by norm_num [calculate_height_values])

/-- Acceptance soundness of the first validation loop: a value it returns
is strictly positive. -/
theorem validate_initial_height_sound :
    ∀ (entries : List (Option ℚ)) (v : ℚ),
      validate_initial_height entries = some v → 0 < v := by
  intro entries
  induction entries with
  | nil =>
      intro v hv
      simp [validate_initial_height] at hv
  | cons e rest ih =>
      intro v hv
      cases e with
      | none => exact ih v (by simpa [validate_initial_height] using hv)
      | some w =>
          by_cases hw : w ≤ 0
          · exact ih v
              (by simpa [validate_initial_height, hw] using hv)
          · have hwv : w = v := by
              simpa [validate_initial_height, hw] using hv
            subst hwv
            exact not_le.mp hw

/-- Acceptance soundness of the second validation loop: a value it returns
is non-negative and strictly below the initial height. -/
theorem validate_minimum_height_sound (initial_height : ℚ) :
    ∀ (entries : List (Option ℚ)) (v : ℚ),
      validate_minimum_height initial_height entries = some v →
        0 ≤ v ∧ v < initial_height := by
  intro entries
  induction entries with
  | nil =>
      intro v hv
      simp [validate_minimum_height] at hv
  | cons e rest ih =>
      intro v hv
      cases e with
      | none => exact ih v (by simpa [validate_minimum_height] using hv)
      | some w =>
          by_cases hw0 : w < 0
          · exact ih v
              (by simpa [validate_minimum_height, hw0] using hv)
          · by_cases hw1 : w ≥ initial_height
            · exact ih v
                (by simpa [validate_minimum_height, hw0, hw1] using hv)
            · have hwv : w = v := by
                simpa [validate_minimum_height, hw0, hw1] using hv
              subst hwv
              exact ⟨not_lt.mp hw0, not_le.mp hw1⟩

/-- Acceptance soundness of the third validation loop: a value it returns
is strictly between 0 and 1. -/
theorem validate_energy_loss_coefficient_sound :
    ∀ (entries : List (Option ℚ)) (v : ℚ),
      validate_energy_loss_coefficient entries = some v → 0 < v ∧ v < 1 := by
  intro entries
  induction entries with
  | nil =>
      intro v hv
      simp [validate_energy_loss_coefficient] at hv
  | cons e rest ih =>
      intro v hv
      cases e with
      | none =>
          exact ih v (by simpa [validate_energy_loss_coefficient] using hv)
      | some w =>
          by_cases hw : w ≤ 0 ∨ w ≥ 1
          · exact ih v
              (by simpa [validate_energy_loss_coefficient, hw] using hv)
          · have hwv : w = v := by
              simpa [validate_energy_loss_coefficient, hw] using hv
            subst hwv
            push_neg at hw
            exact hw

/-- C8: the three validation loops of the bounce script re-prompt on
non-numeric entries and on domain violations, and accept a value only when
valid: the initial-height loop accepts exactly positive numbers, the
minimum-height loop re-prompts when the candidate is at least the initial
height (and on negative candidates) and only returns values in
`[0, initial_height)`, and the coefficient loop accepts exactly numbers
strictly between 0 and 1. -/
theorem validation_loops_correct :
    (∀ rest : List (Option ℚ),
        validate_initial_height (none :: rest)
          = validate_initial_height rest) ∧
    (∀ (v : ℚ) (rest : List (Option ℚ)), v ≤ 0 →
        validate_initial_height (some v :: rest)
          = validate_initial_height rest) ∧
    (∀ (v : ℚ) (rest : List (Option ℚ)), 0 < v →
        validate_initial_height (some v :: rest) = some v) ∧
    (∀ (entries : List (Option ℚ)) (v : ℚ),
        validate_initial_height entries = some v → 0 < v) ∧
    (∀ (h0 : ℚ) (rest : List (Option ℚ)),
        validate_minimum_height h0 (none :: rest)
          = validate_minimum_height h0 rest) ∧
    (∀ (h0 v : ℚ) (rest : List (Option ℚ)), v < 0 ∨ h0 ≤ v →
        validate_minimum_height h0 (some v :: rest)
          = validate_minimum_height h0 rest) ∧
    (∀ (h0 v : ℚ) (rest : List (Option ℚ)), 0 ≤ v → v < h0 →
        validate_minimum_height h0 (some v :: rest) = some v) ∧
    (∀ (h0 : ℚ) (entries : List (Option ℚ)) (v : ℚ),
        validate_minimum_height h0 entries = some v →
          0 ≤ v ∧ v < h0) ∧
    (∀ rest : List (Option ℚ),
        validate_energy_loss_coefficient (none :: rest)
          = validate_energy_loss_coefficient rest) ∧
    (∀ (v : ℚ) (rest : List (Option ℚ)), v ≤ 0 ∨ 1 ≤ v →
        validate_energy_loss_coefficient (some v :: rest)
          = validate_energy_loss_coefficient rest) ∧
    (∀ (v : ℚ) (rest : List (Option ℚ)), 0 < v → v < 1 →
        validate_energy_loss_coefficient (some v :: rest) = some v) ∧
    (∀ (entries : List (Option ℚ)) (v : ℚ),
        validate_energy_loss_coefficient entries = some v →
          0 < v ∧ v < 1) := by
  refine ⟨fun rest => rfl, ?_, ?_, validate_initial_height_sound,
    fun h0 rest => rfl, ?_, ?_, validate_minimum_height_sound,
    fun rest => rfl, ?_, ?_, validate_energy_loss_coefficient_sound⟩
  · intro v rest hv
    simp [validate_initial_height, hv]
  · intro v rest hv
    simp [validate_initial_height, not_le.mpr hv]
  · intro h0 v rest hv
    rcases hv with hv | hv
    · simp [validate_minimum_height, hv]
    · by_cases hv0 : v < 0
      · simp [validate_minimum_height, hv0]
      · simp [validate_minimum_height, hv0, hv]
  · intro h0 v rest hv0 hv1
    simp [validate_minimum_height, not_lt.mpr hv0, not_le.mpr hv1]
  · intro v rest hv
    rcases hv with hv | hv
    · simp [validate_energy_loss_coefficient, hv]
    · simp [validate_energy_loss_coefficient, hv]
  · intro v rest hv0 hv1
    simp [validate_energy_loss_coefficient, not_le.mpr hv0, not_le.mpr hv1]

/-- Witness for C8: concrete entry streams for the three loops, each with
a non-numeric or out-of-range entry that is skipped before a valid entry
is accepted. -/
theorem validation_loops_correct_witness :
    validate_initial_height [none, some (-1), some 2] = some 2 ∧
      validate_minimum_height 2 [some 5, some 1] = some 1 ∧
      validate_energy_loss_coefficient [some 0, some (1/2)] = some (1/2) := by
  obtain ⟨p1, p2, p3, _, _, q2, q3, _, _, r2, r3, _⟩ :=
    validation_loops_correct
  refine ⟨?_, ?_, ?_⟩
  · rw [p1, p2 (-1) _ (by norm_num), p3 2 _ (by norm_num)]
  · rw [q2 2 5 _ (Or.inr (by norm_num)), q3 2 1 _ (by norm_num) (by norm_num)]
  · rw [r2 0 _ (Or.inl (by norm_num)),
      r3 (1/2) _ (by norm_num) (by norm_num)]
